import Mathlib

/-!
Verification development for the ESP32 SimHub dashboard sketch.

The definitions below are a shallow embedding of the current sketch
(the version with tyre temperatures, the pit-limiter overlay and the
FreeRTOS LED task); the older revision DASH.ino is embedded separately
where a claim refers to it (the eased rev bar).  Machine integers are
modelled as Int: on the ESP32 both int and long are 32 bits wide and no
claim exercises wrap-around.  Text is modelled as List Char.
-/

namespace Dash

/-- Digit test used by the numeric token parsers: 48..57 are the ASCII
codes of the characters 0..9. -/
def isDig (c : Char) : Bool := 48 ≤ c.toNat && c.toNat ≤ 57

/-- Space test matching the C isspace set used by String.trim:
space, tab, line feed, vertical tab, form feed, carriage return. -/
def isSpaceC (c : Char) : Bool :=
  c.toNat = 32 || c.toNat = 9 || c.toNat = 10 || c.toNat = 11 || c.toNat = 13 || c.toNat = 12

/-- Model of Arduino String.trim: surrounding whitespace removed. -/
def trimChars (cs : List Char) : List Char :=
  ((cs.dropWhile isSpaceC).reverse.dropWhile isSpaceC).reverse

/-- Decimal digit character for a digit value below ten. -/
def digitChar (d : Nat) : Char := Char.ofNat (48 + d % 10)

/-- Decimal digit string of a natural number, most significant digit
first; this is what snprintf emits for a nonnegative integer. -/
def natDigits (n : Nat) : List Char :=
  if _h : n < 10 then [digitChar n]
  else natDigits (n / 10) ++ [digitChar (n % 10)]
termination_by n
decreasing_by exact Nat.div_lt_self (by omega) (by omega)

/-- Numeric value of a run of decimal digit characters. -/
def digitsVal (cs : List Char) : Nat :=
  cs.foldl (fun a c => a * 10 + (c.toNat - 48)) 0

/-- Value of the leading run of digits of a token (atol semantics:
parsing stops at the first character that is not a digit; an empty
run yields zero). -/
def leadDigitsVal (cs : List Char) : Nat := digitsVal (cs.takeWhile isDig)

/-- Model of Arduino String.toInt (atol on the trimmed token): an
optional sign followed by the leading digit run; a token with no
leading digits parses as zero. -/
def toIntC : List Char → Int
  | '-' :: cs => -(leadDigitsVal cs : Int)
  | '+' :: cs => (leadDigitsVal cs : Int)
  | cs => (leadDigitsVal cs : Int)

/-- Model of the cast (long)tok.toFloat(): strtod reads an optional
sign, integer digits, and an optional fraction; the cast truncates
toward zero, discarding the fraction, so only the sign and the integer
digit run remain.  Exponent notation and single-precision rounding of
the external library routine are not modelled; no claim exercises
them. -/
def toFloatTruncC : List Char → Int
  | '-' :: cs => -(leadDigitsVal cs : Int)
  | '+' :: cs => (leadDigitsVal cs : Int)
  | cs => (leadDigitsVal cs : Int)

/-- Numeric parse of one trimmed token, from readCSV:
tok.indexOf(46) >= 0 ? (long)tok.toFloat() : (long)tok.toInt(). -/
def parseTok (tok : List Char) : Int :=
  if tok.contains '.' then toFloatTruncC tok else toIntC tok

/-- Maximum number of stored fields: the array long v[25] in readCSV. -/
def MAX_FIELDS : Nat := 25

/-- Tokenizing loop of readCSV: walk the accumulated line while fewer
than MAX_FIELDS values are stored; a comma closes the current token
(trim, parse, store), a carriage return is skipped, any other character
is appended to the token; at the end of the line the final token is
stored if room remains.  The accumulator acc holds the stored values,
and its length is the loop counter i. -/
def parseFieldsAux : List Char → Nat → List Char → List Int → List Int
  | [], i, tok, acc =>
      if i < MAX_FIELDS then acc ++ [parseTok (trimChars tok)] else acc
  | c :: cs, i, tok, acc =>
      if i < MAX_FIELDS then
        if c = ',' then parseFieldsAux cs (i + 1) [] (acc ++ [parseTok (trimChars tok)])
        else if c.toNat = 13 then parseFieldsAux cs i tok acc
        else parseFieldsAux cs i (tok ++ [c]) acc
      else acc

/-- Field values decoded from one complete line. -/
def parseFields (line : List Char) : List Int := parseFieldsAux line 0 [] []

/-- Read of the value array: v was zero-initialized, so a slot that was
never stored reads as zero. -/
def getV (vals : List Int) (j : Nat) : Int := vals.getD j 0

/-- Telemetry store of the sketch: the global variables fed by readCSV. -/
structure Telemetry where
  rpm : Int
  maxRpm : Int
  speed : Int
  gear : Int
  pos : Int
  lapMs : Int
  bestMs : Int
  deltaMs : Int
  flagYellow : Int
  flagBlue : Int
  flagRed : Int
  flagGreen : Int
  tyreFL : Int
  tyreFR : Int
  tyreRL : Int
  tyreRR : Int
  curLap : Int
  totLaps : Int
  pitLimiterOn : Int
  deriving DecidableEq, Repr

/-- Initial values of the telemetry globals. -/
def telemInit : Telemetry :=
  { rpm := 0, maxRpm := 8000, speed := 0, gear := 0, pos := 0,
    lapMs := 0, bestMs := 0, deltaMs := 0,
    flagYellow := 0, flagBlue := 0, flagRed := 0, flagGreen := 0,
    tyreFL := 0, tyreFR := 0, tyreRL := 0, tyreRR := 0,
    curLap := 0, totLaps := 0, pitLimiterOn := 0 }

/-- Effect of one complete line on the telemetry store (the body of the
line-feed branch of readCSV): if at least 13 fields were stored the
fields are mapped positionally (slot 4 is unused in this version);
curLap, totLaps and pitLimiterOn fall back to zero when their field is
absent, while each tyre temperature is only assigned when its field is
present; with fewer than 13 fields the store is untouched. -/
def applyLine (t : Telemetry) (line : List Char) : Telemetry :=
  let v := parseFields line
  let i := v.length
  if 13 ≤ i then
    { rpm := getV v 0, speed := getV v 1, gear := getV v 2, pos := getV v 3,
      lapMs := getV v 5, bestMs := getV v 6, deltaMs := getV v 7,
      maxRpm := max 1000 (getV v 8),
      flagYellow := getV v 9, flagBlue := getV v 10,
      flagRed := getV v 11, flagGreen := getV v 12,
      curLap := if 14 ≤ i then getV v 13 else 0,
      totLaps := if 15 ≤ i then getV v 14 else 0,
      tyreFL := if 16 ≤ i then getV v 15 else t.tyreFL,
      tyreFR := if 17 ≤ i then getV v 16 else t.tyreFR,
      tyreRL := if 18 ≤ i then getV v 17 else t.tyreRL,
      tyreRR := if 19 ≤ i then getV v 18 else t.tyreRR,
      pitLimiterOn := if 20 ≤ i then getV v 19 else 0 }
  else t

/-- Line-buffer guard of readCSV. -/
def LINE_MAX : Nat := 1024

/-- Decoder state: the static line buffer of readCSV, the telemetry
store, and the freshness clock lastDataTime. -/
structure DecoderState where
  line : List Char
  telem : Telemetry
  lastDataTime : Nat
  deriving DecidableEq, Repr

/-- State after setup: empty buffer, initial telemetry. -/
def decInit : DecoderState := { line := [], telem := telemInit, lastDataTime := 0 }

/-- Effect of one received byte (one iteration of the while loop of
readCSV): the freshness clock is stamped first; a line feed decodes the
accumulated line and empties the buffer; any other byte is appended,
and if the buffer then exceeds LINE_MAX characters the whole partial
line is discarded. -/
def processByte (s : DecoderState) (now : Nat) (ch : Char) : DecoderState :=
  let s1 : DecoderState := { s with lastDataTime := now }
  if ch.toNat = 10 then
    { s1 with telem := applyLine s1.telem s1.line, line := [] }
  else
    let l := s1.line ++ [ch]
    { s1 with line := if LINE_MAX < l.length then [] else l }

/-- Folding processByte over a timed byte stream. -/
def processBytes (s : DecoderState) : List (Nat × Char) → DecoderState
  | [] => s
  | (now, ch) :: rest => processBytes (processByte s now ch) rest

/-- Zero padding of the seconds field, the %02ld conversion: one
leading zero below ten, plain digits otherwise. -/
def pad2 (n : Nat) : List Char := if n < 10 then '0' :: natDigits n else natDigits n

/-- Zero padding of the milliseconds field, the %03ld conversion. -/
def pad3 (n : Nat) : List Char :=
  if n < 10 then '0' :: '0' :: natDigits n
  else if n < 100 then '0' :: natDigits n
  else natDigits n

/-- Embedding of msToStr: minutes, zero-padded seconds and zero-padded
milliseconds of the absolute value, preceded by a minus sign when the
input is negative (the format %s%ld:%02ld.%03ld). -/
def msToStr (ms : Int) : List Char :=
  let a := ms.natAbs
  let t := a / 1000
  let mm := t / 60
  let ss := t % 60
  let sss := a % 1000
  (if ms < 0 then ['-'] else []) ++ natDigits mm ++ ':' :: pad2 ss ++ '.' :: pad3 sss

/-- Splitting a character list at its leading digit run. -/
def spanDigits (cs : List Char) : List Char × List Char :=
  (cs.takeWhile isDig, cs.dropWhile isDig)

/-- Re-parser for the printed time format mm:ss.mmm, recovering
minutes, seconds and milliseconds and recombining them as
minutes * 60000 + seconds * 1000 + milliseconds. -/
def parseTimeStr (cs : List Char) : Option Int :=
  let mmP := spanDigits cs
  match mmP.2 with
  | ':' :: r2 =>
    let ssP := spanDigits r2
    match ssP.2 with
    | '.' :: r4 =>
      let msP := spanDigits r4
      if mmP.1 ≠ [] && ssP.1 ≠ [] && msP.1 ≠ [] && msP.2.isEmpty then
        some ((digitsVal mmP.1 : Int) * 60000 + (digitsVal ssP.1 : Int) * 1000
              + (digitsVal msP.1 : Int))
      else none
    | _ => none
  | _ => none

/-- Display colors (ILI9341 RGB565 values). -/
def C_TX : Nat := 0xFFFF

/-- Green, used for a gaining delta. -/
def C_OK : Nat := 0x07E0

/-- Red, used for a losing delta. -/
def C_BAD : Nat := 0xF800

/-- Whole-second part shown by drawDelta: magnitude divided by 1000,
clamped to 99. -/
def deltaWhole (v : Int) : Nat :=
  if 99 < v.natAbs / 1000 then 99 else v.natAbs / 1000

/-- Millisecond part shown by drawDelta: magnitude mod 1000, forced to
999 when the whole-second part was clamped. -/
def deltaFrac (v : Int) : Nat :=
  if 99 < v.natAbs / 1000 then 999 else v.natAbs % 1000

/-- Sign character of drawDelta: minus when negative, plus when
positive, the plus-minus symbol at exactly zero. -/
def deltaSign (v : Int) : Char := if v < 0 then '-' else if 0 < v then '+' else '±'

/-- Text composed by drawDelta: format %c %d.%03d below ten whole
seconds (sign, space, single digit), else %c%02d.%03d. -/
def deltaText (v : Int) : List Char :=
  if deltaWhole v < 10 then
    deltaSign v :: ' ' :: natDigits (deltaWhole v) ++ '.' :: pad3 (deltaFrac v)
  else
    deltaSign v :: pad2 (deltaWhole v) ++ '.' :: pad3 (deltaFrac v)

/-- Text color chosen by drawDelta. -/
def deltaColor (v : Int) : Nat := if v < 0 then C_OK else if 0 < v then C_BAD else C_TX

/-- Observable side effects of one pass of loop().  The seven
per-widget draw calls of the normal path collapse into widgetDraws:
their internal change tracking is not at issue in the mode claims.
invalidateSnaps stands for the block of snapshot-reset assignments
(crpm through cTyreRR set to their impossible sentinel values), which
forces a complete repaint. -/
inductive Effect
  | drawNoData
  | setNoDataLeds
  | drawStatic
  | requestClearLeds
  | invalidateSnaps
  | invertOn
  | invertOff
  | pitBlink
  | widgetDraws
  | revLeds
  deriving DecidableEq, Repr

/-- Mode flags of the main loop. -/
structure LoopState where
  noDataScreenActive : Bool
  pitScreenActive : Bool
  pitInvertActive : Bool
  deriving DecidableEq, Repr

/-- Flags after setup: all presentations inactive. -/
def loopInit : LoopState :=
  { noDataScreenActive := false, pitScreenActive := false, pitInvertActive := false }

/-- One pass of loop() after readCSV, given the current time, the
freshness clock and the pit-limiter flag.  Branch structure of the
source: the staleness check returns early (drawing the no-data screen
only on the tick that enters it); a fresh tick first replays the
return-to-normal entry action if the no-data screen was active, then
the pit-limiter flag selects either the overlay path (inverting the
display only on the entering tick) or, on the tick that leaves the
overlay, the restore-and-repaint exit action followed by the normal
widget draws.  The unsigned subtraction millis() - lastDataTime is
modelled by truncated Nat subtraction, exact whenever now is not
earlier than the stamp. -/
def loopTick (s : LoopState) (now last : Nat) (pit : Int) : LoopState × List Effect :=
  if 2000 < now - last then
    ({ s with noDataScreenActive := true },
     (if s.noDataScreenActive then [] else [Effect.drawNoData]) ++ [Effect.setNoDataLeds])
  else
    let p1 : LoopState × List Effect :=
      if s.noDataScreenActive then
        ({ s with noDataScreenActive := false },
         [Effect.drawStatic, Effect.requestClearLeds, Effect.invalidateSnaps])
      else (s, [])
    let s1 := p1.1
    if pit ≠ 0 then
      let p2 : LoopState × List Effect :=
        if s1.pitScreenActive then (s1, [])
        else ({ s1 with pitScreenActive := true, pitInvertActive := true }, [Effect.invertOn])
      (p2.1, p1.2 ++ p2.2 ++ [Effect.pitBlink, Effect.revLeds])
    else
      let p2 : LoopState × List Effect :=
        if s1.pitScreenActive then
          ({ s1 with pitScreenActive := false, pitInvertActive := false },
           (if s1.pitInvertActive then [Effect.invertOff] else []) ++
             [Effect.drawStatic, Effect.requestClearLeds, Effect.invalidateSnaps])
        else (s1, [])
      (p2.1, p1.2 ++ p2.2 ++ [Effect.widgetDraws, Effect.revLeds])

/-- Folding loopTick over a sequence of ticks, collecting all effects. -/
def runLoop (s : LoopState) : List (Nat × Nat × Int) → LoopState × List Effect
  | [] => (s, [])
  | (now, last, pit) :: rest =>
    let p := loopTick s now last pit
    let q := runLoop p.1 rest
    (q.1, p.2 ++ q.2)

/-- Number of LEDs on the strip. -/
def LED_COUNT : Nat := 8

/-- roundf and round of the C library for a nonnegative argument:
round half away from zero. -/
def roundQ (q : ℚ) : ℤ := ⌊q + 1/2⌋

/-- Percentage clamp of drawRevLEDs: if (pct < 0) pct = 0; if (pct > 1)
pct = 1. -/
def clamp01 (q : ℚ) : ℚ := if q < 0 then 0 else if 1 < q then 1 else q

/-- Lit-count clamp: if (lit < 0) lit = 0; if (lit > LED_COUNT)
lit = LED_COUNT. -/
def clampLit (l : Int) : Int :=
  if l < 0 then 0 else if (LED_COUNT : Int) < l then (LED_COUNT : Int) else l

/-- Desired lit count computed by drawRevLEDs of the current sketch
(startPct 0.80, endPct 1.00): the engine-speed ratio is pushed through
the percentage window, clamped to the unit interval, scaled to the
strip and rounded, then clamped to 0..LED_COUNT.  Exact rational
arithmetic stands in for the single-precision float of the source; the
guard rpm >= 0 && maxRpm > 0 of the source yields zero otherwise. -/
def revLitDesired (rpm maxRpm : Int) : Int :=
  if 0 ≤ rpm ∧ 0 < maxRpm then
    clampLit (roundQ
      (clamp01 (((rpm : ℚ) / (maxRpm : ℚ) - 8/10) / (1 - 8/10)) * (LED_COUNT : ℚ)))
  else 0

/-- Flag mask sent to the LED task, bit3 red, bit2 yellow, bit1 blue,
bit0 green. -/
def revFlagMask (fy fb fr fg : Int) : Int :=
  (if fr ≠ 0 then 8 else 0) + (if fy ≠ 0 then 4 else 0) +
    (if fb ≠ 0 then 2 else 0) + (if fg ≠ 0 then 1 else 0)

/-- Lit count applied by the rev-bar branch of ledTask (reached when no
clear is pending, no-data mode is off and the flag mask is zero): the
desired count clamped to the strip.  The task keeps no memory of a
previous lit count, so the displayed count equals the clamped desired
count after a single task tick. -/
def ledTaskLit (desired : Int) : Int := clampLit desired

/-- Target lit count of drawRevLEDs in the older revision DASH.ino
(startPct 0.75, endPct 0.90); the guard there clears the strip, shown
as zero, when rpm < 0 or maxRpm <= 0. -/
def revTargetD (rpm maxRpm : Int) : Int :=
  if 0 ≤ rpm ∧ 0 < maxRpm then
    roundQ (clamp01 (((rpm : ℚ) / (maxRpm : ℚ) - 3/4) / ((9:ℚ)/10 - 3/4)) * (LED_COUNT : ℚ))
  else 0

/-- Easing step of DASH.ino applied to the static lastLit on every
call: one step up while below the target, one step down while above it
on ticks with an odd millis value, otherwise unchanged. -/
def easeStep (target lastLit : Int) (nowOdd : Bool) : Int :=
  if lastLit < target then lastLit + 1
  else if target < lastLit ∧ nowOdd then lastLit - 1
  else lastLit

lemma digitChar_toNat (d : Nat) : (digitChar d).toNat = 48 + d % 10 := by
  have h : d % 10 < 10 := Nat.mod_lt _ (by norm_num)
  unfold digitChar
  generalize he : d % 10 = e
  rw [he] at h
  interval_cases e <;> decide

lemma isDig_digitChar (d : Nat) : isDig (digitChar d) = true := by
  simp only [isDig, digitChar_toNat, Bool.and_eq_true, decide_eq_true_eq]
  omega

lemma natDigits_ne_nil (n : Nat) : natDigits n ≠ [] := by
  rw [natDigits.eq_def]
  split <;> simp

lemma natDigits_all_isDig (n : Nat) : ∀ c ∈ natDigits n, isDig c = true := by
  induction n using natDigits.induct with
  | case1 n h =>
    rw [natDigits.eq_def, dif_pos h]
    intro c hc
    simp at hc
    simp [hc, isDig_digitChar]
  | case2 n h ih =>
    rw [natDigits.eq_def, dif_neg h]
    intro c hc
    rcases List.mem_append.mp hc with h1 | h1
    · exact ih c h1
    · simp at h1; simp [h1, isDig_digitChar]

/-- Decimal accumulation with an explicit starting accumulator. -/
def digitsValFrom (a : Nat) (cs : List Char) : Nat :=
  cs.foldl (fun x c => x * 10 + (c.toNat - 48)) a

lemma digitsVal_eq_from (cs : List Char) : digitsVal cs = digitsValFrom 0 cs := rfl

lemma digitsValFrom_append (a : Nat) (xs ys : List Char) :
    digitsValFrom a (xs ++ ys) = digitsValFrom (digitsValFrom a xs) ys := by
  simp [digitsValFrom, List.foldl_append]

lemma digitsValFrom_single (a : Nat) (c : Char) :
    digitsValFrom a [c] = a * 10 + (c.toNat - 48) := rfl

lemma digitsValFrom_natDigits (n a : Nat) :
    digitsValFrom a (natDigits n) = a * 10 ^ (natDigits n).length + n := by
  induction n using natDigits.induct generalizing a with
  | case1 n h =>
    rw [natDigits.eq_def, dif_pos h, digitsValFrom_single, digitChar_toNat]
    rw [List.length_singleton, pow_one]
    omega
  | case2 n h ih =>
    have hsplit : natDigits n = natDigits (n / 10) ++ [digitChar (n % 10)] := by
      rw [natDigits.eq_def, dif_neg h]
    rw [hsplit, digitsValFrom_append, ih, digitsValFrom_single, digitChar_toNat,
      List.length_append, List.length_singleton, pow_succ, ← mul_assoc]
    generalize a * 10 ^ (natDigits (n / 10)).length = B
    omega

lemma digitsVal_natDigits (n : Nat) : digitsVal (natDigits n) = n := by
  rw [digitsVal_eq_from, digitsValFrom_natDigits]
  simp

lemma takeWhile_digits_append (ds rest : List Char) (hds : ∀ c ∈ ds, isDig c = true)
    (hrest : ∀ c, rest.head? = some c → isDig c = false) :
    (ds ++ rest).takeWhile isDig = ds := by
  induction ds with
  | nil =>
    cases rest with
    | nil => rfl
    | cons c cs => simp [List.takeWhile_cons, hrest c rfl]
  | cons d ds ih =>
    simp only [List.cons_append, List.takeWhile_cons, hds d (by simp)]
    simp [ih (fun c hc => hds c (by simp [hc]))]

lemma dropWhile_digits_append (ds rest : List Char) (hds : ∀ c ∈ ds, isDig c = true)
    (hrest : ∀ c, rest.head? = some c → isDig c = false) :
    (ds ++ rest).dropWhile isDig = rest := by
  induction ds with
  | nil =>
    cases rest with
    | nil => rfl
    | cons c cs => simp [List.dropWhile_cons, hrest c rfl]
  | cons d ds ih =>
    simp only [List.cons_append, List.dropWhile_cons, hds d (by simp)]
    simp [ih (fun c hc => hds c (by simp [hc]))]

lemma spanDigits_append (ds rest : List Char) (hds : ∀ c ∈ ds, isDig c = true)
    (hrest : ∀ c, rest.head? = some c → isDig c = false) :
    spanDigits (ds ++ rest) = (ds, rest) := by
  unfold spanDigits
  rw [takeWhile_digits_append ds rest hds hrest, dropWhile_digits_append ds rest hds hrest]

lemma pad2_all_isDig (n : Nat) : ∀ c ∈ pad2 n, isDig c = true := by
  unfold pad2
  split
  · intro c hc
    rcases List.mem_cons.mp hc with rfl | h
    · decide
    · exact natDigits_all_isDig n c h
  · exact natDigits_all_isDig n

lemma pad3_all_isDig (n : Nat) : ∀ c ∈ pad3 n, isDig c = true := by
  unfold pad3
  split
  · intro c hc
    rcases List.mem_cons.mp hc with rfl | h
    · decide
    · rcases List.mem_cons.mp h with rfl | h2
      · decide
      · exact natDigits_all_isDig n c h2
  · split
    · intro c hc
      rcases List.mem_cons.mp hc with rfl | h
      · decide
      · exact natDigits_all_isDig n c h
    · exact natDigits_all_isDig n

lemma pad2_ne_nil (n : Nat) : pad2 n ≠ [] := by
  unfold pad2
  split
  · simp
  · exact natDigits_ne_nil n

lemma pad3_ne_nil (n : Nat) : pad3 n ≠ [] := by
  unfold pad3
  split
  · simp
  · split
    · simp
    · exact natDigits_ne_nil n

lemma digitsValFrom_cons (a : Nat) (c : Char) (cs : List Char) :
    digitsValFrom a (c :: cs) = digitsValFrom (a * 10 + (c.toNat - 48)) cs := rfl

lemma digitsVal_pad2 (n : Nat) : digitsVal (pad2 n) = n := by
  unfold pad2
  split
  · rw [digitsVal_eq_from, digitsValFrom_cons, digitsValFrom_natDigits]
    norm_num
    decide
  · exact digitsVal_natDigits n

lemma digitsVal_pad3 (n : Nat) : digitsVal (pad3 n) = n := by
  unfold pad3
  split
  · rw [digitsVal_eq_from, digitsValFrom_cons, digitsValFrom_cons, digitsValFrom_natDigits]
    norm_num
    decide
  · split
    · rw [digitsVal_eq_from, digitsValFrom_cons, digitsValFrom_natDigits]
      norm_num
      decide
    · exact digitsVal_natDigits n

/-- C6: formatting a time of t milliseconds, 0 <= t < 6000000, through
msToStr and re-parsing the printed mm:ss.mmm string back to
milliseconds reproduces t exactly (so in particular within 1 ms). -/
theorem msToStr_roundtrip (t : Int) (h0 : 0 ≤ t) (h1 : t < 6000000) :
    parseTimeStr (msToStr t) = some t := by
  obtain ⟨n, rfl⟩ : ∃ n : Nat, ((n : Int)) = t := ⟨t.toNat, Int.toNat_of_nonneg h0⟩
  have hneg : ¬ ((n : Int) < 0) := by
    simp
  have hms : msToStr (n : Int)
      = natDigits (n / 1000 / 60) ++ ':' :: (pad2 (n / 1000 % 60) ++ '.' :: pad3 (n % 1000)) := by
    unfold msToStr
    rw [if_neg hneg]
    simp
  have hspan1 : spanDigits (natDigits (n / 1000 / 60)
        ++ ':' :: (pad2 (n / 1000 % 60) ++ '.' :: pad3 (n % 1000)))
      = (natDigits (n / 1000 / 60), ':' :: (pad2 (n / 1000 % 60) ++ '.' :: pad3 (n % 1000))) := by
    refine spanDigits_append _ _ (natDigits_all_isDig _) ?_
    intro c hc
    rw [List.head?_cons] at hc
    injection hc with h
    subst h
    decide
  have hspan2 : spanDigits (pad2 (n / 1000 % 60) ++ '.' :: pad3 (n % 1000))
      = (pad2 (n / 1000 % 60), '.' :: pad3 (n % 1000)) := by
    refine spanDigits_append _ _ (pad2_all_isDig _) ?_
    intro c hc
    rw [List.head?_cons] at hc
    injection hc with h
    subst h
    decide
  have hspan3 : spanDigits (pad3 (n % 1000) ++ []) = (pad3 (n % 1000), []) := by
    refine spanDigits_append _ _ (pad3_all_isDig _) ?_
    intro c hc
    simp at hc
  rw [List.append_nil] at hspan3
  rw [hms]
  simp only [parseTimeStr, hspan1, hspan2, hspan3]
  rw [if_pos]
  · rw [digitsVal_natDigits, digitsVal_pad2, digitsVal_pad3]
    congr 1
    push_cast
    omega
  · simp [natDigits_ne_nil, pad2_ne_nil, pad3_ne_nil]

/-- C6 witness: the round trip evaluated at 65000 ms, the lap time of
the scenario line, reproduces 65000. -/
theorem msToStr_roundtrip_witness :
    parseTimeStr (msToStr 65000) = some 65000 :=
  msToStr_roundtrip 65000 (by norm_num) (by norm_num)

/-- Scenario line of the spec: 13 well-formed fields. -/
def lineGood : List Char := "6000,120,3,2,0,65000,64000,-500,8000,0,0,0,0".toList

/-- Line with 13 fields whose first (required) field is not numeric. -/
def lineBadTok : List Char := "x,1,1,1,1,1,1,1,1,1,1,1,1".toList

/-- Line with 19 fields: the scenario line extended by lap counters and
the four tyre temperatures 90, 91, 92, 93. -/
def lineTyres : List Char :=
  "6000,120,3,2,0,65000,64000,-500,8000,0,0,0,0,5,20,90,91,92,93".toList

/-- C1 counterexample: a completed line with the required 13 fields but
a non-numeric first field (the token x) is not dropped: atol parses the
token as zero, the line is accepted, and the store changes (rpm falls
from 6000 to 0), refuting the part of the claim that covers
non-numeric required fields. -/
theorem readCSV_nonNumeric_counterexample :
    (parseFields lineBadTok).length = 13 ∧
    applyLine (applyLine telemInit lineGood) lineBadTok ≠ applyLine telemInit lineGood := by
  decide

lemma applyLine_of_short (t : Telemetry) (line : List Char)
    (h : (parseFields line).length < 13) : applyLine t line = t := by
  simp only [applyLine]
  rw [if_neg (by omega)]

/-- C1 amended: a completed line with fewer than 13 comma-separated
fields leaves every field of the telemetry store unchanged, both at
line level and across the line-feed step of the byte decoder (only the
freshness clock moves); a line with 13 or more fields is accepted even
when a required field is not numeric, the offending token parsing as
zero. -/
theorem readCSV_shortLine_dropped :
    (∀ t line, (parseFields line).length < 13 → applyLine t line = t) ∧
    (∀ s now, (parseFields s.line).length < 13 →
      (processByte s now (Char.ofNat 10)).telem = s.telem) := by
  constructor
  · exact applyLine_of_short
  · intro s now h
    simp only [processByte]
    rw [if_pos (by decide)]
    exact applyLine_of_short s.telem s.line h

/-- C1 witness: the amended theorem applied to the two-field line 1,2
from the initial store, and to the matching line-feed step. -/
theorem readCSV_shortLine_dropped_witness :
    applyLine telemInit ("1,2".toList) = telemInit ∧
    (processByte { line := "1,2".toList, telem := telemInit, lastDataTime := 0 } 5
        (Char.ofNat 10)).telem = telemInit :=
  ⟨readCSV_shortLine_dropped.1 telemInit ("1,2".toList) (by decide),
   readCSV_shortLine_dropped.2 { line := "1,2".toList, telem := telemInit, lastDataTime := 0 } 5
     (by decide)⟩

/-- C2 counterexample: after a 19-field line sets tyreFL to 90, an
accepted 13-field line leaves tyreFL at 90 instead of resetting the
absent optional field to zero, refuting the claim for the four tyre
temperatures. -/
theorem optionalTyres_retained_counterexample :
    (parseFields lineGood).length = 13 ∧
    (applyLine (applyLine telemInit lineTyres) lineGood).tyreFL = 90 ∧
    (applyLine (applyLine telemInit lineTyres) lineGood).tyreFL ≠ 0 := by
  decide

/-- C2 amended: on an accepted line the absent optional fields curLap,
totLaps and pitLimiterOn each default to zero independently, but an
absent tyre-temperature field keeps its previous value instead of
defaulting to zero. -/
theorem optionalFields_defaults (t : Telemetry) (line : List Char)
    (hacc : 13 ≤ (parseFields line).length) :
    ((parseFields line).length < 14 → (applyLine t line).curLap = 0) ∧
    ((parseFields line).length < 15 → (applyLine t line).totLaps = 0) ∧
    ((parseFields line).length < 20 → (applyLine t line).pitLimiterOn = 0) ∧
    ((parseFields line).length < 16 → (applyLine t line).tyreFL = t.tyreFL) ∧
    ((parseFields line).length < 17 → (applyLine t line).tyreFR = t.tyreFR) ∧
    ((parseFields line).length < 18 → (applyLine t line).tyreRL = t.tyreRL) ∧
    ((parseFields line).length < 19 → (applyLine t line).tyreRR = t.tyreRR) := by
  refine ⟨fun h => ?_, fun h => ?_, fun h => ?_, fun h => ?_, fun h => ?_, fun h => ?_,
    fun h => ?_⟩ <;>
  · simp only [applyLine]
    rw [if_pos hacc]
    simp only []
    rw [if_neg (by omega)]

/-- C2 witness: the amended theorem applied to the 13-field scenario
line from a store holding tyre temperature 77. -/
theorem optionalFields_defaults_witness :
    (applyLine { telemInit with tyreFL := 77 } lineGood).curLap = 0 ∧
    (applyLine { telemInit with tyreFL := 77 } lineGood).tyreFL = 77 := by
  have h := optionalFields_defaults { telemInit with tyreFL := 77 } lineGood (by decide)
  exact ⟨h.1 (by decide), h.2.2.2.1 (by decide)⟩

lemma processByte_line_le (s : DecoderState) (now : Nat) (ch : Char) :
    ((processByte s now ch).line).length ≤ LINE_MAX := by
  simp only [processByte]
  split
  · simp
  · split
    · simp
    · simp only []
      omega

lemma processBytes_line_le (input : List (Nat × Char)) :
    ∀ s : DecoderState, s.line.length ≤ LINE_MAX →
      ((processBytes s input).line).length ≤ LINE_MAX := by
  induction input with
  | nil => intro s h; exact h
  | cons b rest ih =>
    intro s h
    obtain ⟨now, ch⟩ := b
    exact ih (processByte s now ch) (processByte_line_le s now ch)

/-- C9: the accumulated line buffer never exceeds LINE_MAX = 1024
characters after processing any byte; a non-terminator byte that would
push the partial line past the maximum discards the whole partial line;
and along any byte stream from the initial state the bound holds at
every byte-step boundary. -/
theorem lineBuffer_bounded :
    (∀ s now ch, ((processByte s now ch).line).length ≤ LINE_MAX) ∧
    (∀ s now ch, ch.toNat ≠ 10 → LINE_MAX < s.line.length + 1 →
      (processByte s now ch).line = []) ∧
    (∀ input, ((processBytes decInit input).line).length ≤ LINE_MAX) := by
  refine ⟨processByte_line_le, ?_, fun input => processBytes_line_le input decInit (by simp [decInit])⟩
  intro s now ch h hlen
  simp only [processByte]
  rw [if_neg h]
  simp only []
  rw [if_pos (by simp; omega)]

/-- Decoder state holding a full 1024-character partial line. -/
def fullState : DecoderState :=
  { line := List.replicate 1024 'a', telem := telemInit, lastDataTime := 0 }

/-- C9 witness: appending one more character to a full 1024-character
partial line discards it, and the bound holds after a short stream. -/
theorem lineBuffer_bounded_witness :
    (processByte fullState 7 'b').line = [] ∧
    ((processBytes decInit [(1, 'a'), (2, Char.ofNat 10)]).line).length ≤ LINE_MAX := by
  have hlen : fullState.line.length = 1024 := by
    rw [show fullState.line = List.replicate 1024 'a' from rfl, List.length_replicate]
  exact ⟨lineBuffer_bounded.2.1 fullState 7 'b' (by decide) (by rw [hlen]; norm_num [LINE_MAX]),
    lineBuffer_bounded.2.2 [(1, 'a'), (2, Char.ofNat 10)]⟩

lemma applyLine_maxRpm_ge (t : Telemetry) (line : List Char)
    (h : 1000 ≤ t.maxRpm) : 1000 ≤ (applyLine t line).maxRpm := by
  simp only [applyLine]
  split
  · simp only []
    exact le_max_left _ _
  · exact h

lemma processBytes_maxRpm (input : List (Nat × Char)) :
    ∀ s : DecoderState, 1000 ≤ s.telem.maxRpm →
      1000 ≤ ((processBytes s input).telem).maxRpm := by
  induction input with
  | nil => intro s h; exact h
  | cons b rest ih =>
    intro s h
    obtain ⟨now, ch⟩ := b
    refine ih (processByte s now ch) ?_
    simp only [processByte]
    split
    · exact applyLine_maxRpm_ge _ _ h
    · exact h

/-- C10: the rev-limit reference starts at 8000, every accepted line
clamps field 9 up to a minimum of 1000, and along any byte stream from
the initial state maxRpm stays at least 1000, hence never zero, so the
rev-bar ratio rpm / maxRpm never divides by zero. -/
theorem maxRpm_lower_bound :
    telemInit.maxRpm = 8000 ∧
    (∀ t line, 1000 ≤ t.maxRpm → 1000 ≤ (applyLine t line).maxRpm) ∧
    (∀ t line, 13 ≤ (parseFields line).length →
      (applyLine t line).maxRpm = max 1000 (getV (parseFields line) 8)) ∧
    (∀ input, 1000 ≤ ((processBytes decInit input).telem).maxRpm) ∧
    (∀ input, ((processBytes decInit input).telem).maxRpm ≠ 0) := by
  have hinit : (1000 : Int) ≤ telemInit.maxRpm := by decide
  refine ⟨by decide, applyLine_maxRpm_ge, ?_, fun input => processBytes_maxRpm input decInit hinit,
    fun input => by have := processBytes_maxRpm input decInit hinit; omega⟩
  intro t line h
  simp only [applyLine]
  rw [if_pos h]

/-- C10 witness: the clamp and the invariant evaluated on the scenario
line and on a concrete byte stream. -/
theorem maxRpm_lower_bound_witness :
    (applyLine { telemInit with maxRpm := 5000 } lineGood).maxRpm = max 1000 8000 ∧
    1000 ≤ ((processBytes decInit [(1, 'a')]).telem).maxRpm :=
  ⟨maxRpm_lower_bound.2.2.1 { telemInit with maxRpm := 5000 } lineGood (by decide),
   maxRpm_lower_bound.2.2.2.1 [(1, 'a')]⟩

lemma loopTick_stale (s : LoopState) (now last : Nat) (pit : Int) (h : 2000 < now - last) :
    loopTick s now last pit
      = ({ s with noDataScreenActive := true },
         (if s.noDataScreenActive then [] else [Effect.drawNoData]) ++ [Effect.setNoDataLeds]) := by
  simp only [loopTick]
  rw [if_pos h]

lemma loopTick_fresh_normal (now last : Nat) (h : now - last ≤ 2000) :
    loopTick loopInit now last 0 = (loopInit, [Effect.widgetDraws, Effect.revLeds]) := by
  simp only [loopTick]
  rw [if_neg (by omega)]
  simp [loopInit]

lemma loopTick_recovery (now last : Nat) (h : now - last ≤ 2000) :
    loopTick ⟨true, false, false⟩ now last 0
      = (loopInit, [Effect.drawStatic, Effect.requestClearLeds, Effect.invalidateSnaps,
          Effect.widgetDraws, Effect.revLeds]) := by
  simp only [loopTick]
  rw [if_neg (by omega)]
  simp [loopInit]

lemma loopTick_pit_entry (now last : Nat) (pit : Int) (hp : pit ≠ 0) (h : now - last ≤ 2000) :
    loopTick loopInit now last pit
      = (⟨false, true, true⟩, [Effect.invertOn, Effect.pitBlink, Effect.revLeds]) := by
  simp only [loopTick]
  rw [if_neg (by omega)]
  simp [loopInit, hp]

lemma loopTick_pit_held (now last : Nat) (pit : Int) (hp : pit ≠ 0) (h : now - last ≤ 2000) :
    loopTick ⟨false, true, true⟩ now last pit
      = (⟨false, true, true⟩, [Effect.pitBlink, Effect.revLeds]) := by
  simp only [loopTick]
  rw [if_neg (by omega)]
  simp [hp]

lemma loopTick_pit_exit (now last : Nat) (h : now - last ≤ 2000) :
    loopTick ⟨false, true, true⟩ now last 0
      = (loopInit, [Effect.invertOff, Effect.drawStatic, Effect.requestClearLeds,
          Effect.invalidateSnaps, Effect.widgetDraws, Effect.revLeds]) := by
  simp only [loopTick]
  rw [if_neg (by omega)]
  simp [loopInit]

lemma runLoop_cons (s : LoopState) (now last : Nat) (pit : Int) (rest : List (Nat × Nat × Int)) :
    runLoop s ((now, last, pit) :: rest)
      = ((runLoop (loopTick s now last pit).1 rest).1,
         (loopTick s now last pit).2 ++ (runLoop (loopTick s now last pit).1 rest).2) := by
  simp only [runLoop]

lemma runLoop_append (s : LoopState) (l1 l2 : List (Nat × Nat × Int)) :
    runLoop s (l1 ++ l2)
      = ((runLoop (runLoop s l1).1 l2).1,
         (runLoop s l1).2 ++ (runLoop (runLoop s l1).1 l2).2) := by
  induction l1 generalizing s with
  | nil => simp [runLoop]
  | cons x rest ih =>
    obtain ⟨now, last, pit⟩ := x
    simp only [List.cons_append, runLoop]
    rw [show List.append rest l2 = rest ++ l2 from rfl, ih]
    simp [List.append_assoc]

lemma runLoop_replicate_steady (now last : Nat) (pit : Int) (s : LoopState) (es : List Effect)
    (hstep : loopTick s now last pit = (s, es)) :
    ∀ k, (runLoop s (List.replicate k (now, last, pit))).1 = s ∧
      ∀ e : Effect, ((runLoop s (List.replicate k (now, last, pit))).2).count e = k * es.count e := by
  intro k
  induction k with
  | zero => simp [runLoop]
  | succ k ih =>
    constructor
    · simp only [List.replicate_succ, runLoop_cons, hstep]
      exact ih.1
    · intro e
      simp only [List.replicate_succ, runLoop_cons, hstep, List.count_append]
      rw [ih.2 e]
      ring

/-- C3: starting from the normal state, along a run of a fresh ticks,
then b >= 1 stale ticks (more than 2000 ms since the last received
byte), then c >= 1 fresh ticks, all with the pit flag clear: the
no-data screen is drawn exactly once, on the first stale tick; and the
return-to-normal entry action fires exactly once, on the first fresh
tick after the outage: the snapshot invalidation (full repaint), the
static-background redraw and the LED clear each appear exactly once in
the whole run, which ends back in the normal state. -/
theorem signalLost_enters_and_leaves_once (a b c nf lf ns ls : Nat)
    (hb : 1 ≤ b) (hc : 1 ≤ c) (hf : nf - lf ≤ 2000) (hs : 2000 < ns - ls) :
    ((runLoop loopInit (List.replicate a (nf, lf, (0:Int))
        ++ List.replicate b (ns, ls, (0:Int))
        ++ List.replicate c (nf, lf, (0:Int)))).2.count Effect.drawNoData = 1) ∧
    ((runLoop loopInit (List.replicate a (nf, lf, (0:Int))
        ++ List.replicate b (ns, ls, (0:Int))
        ++ List.replicate c (nf, lf, (0:Int)))).2.count Effect.invalidateSnaps = 1) ∧
    ((runLoop loopInit (List.replicate a (nf, lf, (0:Int))
        ++ List.replicate b (ns, ls, (0:Int))
        ++ List.replicate c (nf, lf, (0:Int)))).2.count Effect.drawStatic = 1) ∧
    ((runLoop loopInit (List.replicate a (nf, lf, (0:Int))
        ++ List.replicate b (ns, ls, (0:Int))
        ++ List.replicate c (nf, lf, (0:Int)))).2.count Effect.requestClearLeds = 1) ∧
    ((runLoop loopInit (List.replicate a (nf, lf, (0:Int))
        ++ List.replicate b (ns, ls, (0:Int))
        ++ List.replicate c (nf, lf, (0:Int)))).1 = loopInit) := by
  obtain ⟨b', rfl⟩ : ∃ b', b = b' + 1 := ⟨b - 1, by omega⟩
  obtain ⟨c', rfl⟩ : ∃ c', c = c' + 1 := ⟨c - 1, by omega⟩
  have hstepF := loopTick_fresh_normal nf lf hf
  have hentry : loopTick loopInit ns ls 0
      = (⟨true, false, false⟩, [Effect.drawNoData, Effect.setNoDataLeds]) := by
    rw [loopTick_stale _ _ _ _ hs]
    simp [loopInit]
  have hstepS : loopTick ⟨true, false, false⟩ ns ls 0
      = (⟨true, false, false⟩, [Effect.setNoDataLeds]) := by
    rw [loopTick_stale _ _ _ _ hs]
    simp
  have hrec := loopTick_recovery nf lf hf
  have hA := runLoop_replicate_steady nf lf 0 loopInit _ hstepF a
  have hS := runLoop_replicate_steady ns ls 0 ⟨true, false, false⟩ _ hstepS b'
  have hF := runLoop_replicate_steady nf lf 0 loopInit _ hstepF c'
  have hB1 : (runLoop loopInit (List.replicate (b' + 1) (ns, ls, (0:Int)))).1
      = ⟨true, false, false⟩ := by
    simp only [List.replicate_succ, runLoop_cons, hentry]
    exact hS.1
  have hB2 : ∀ e : Effect, ((runLoop loopInit (List.replicate (b' + 1) (ns, ls, (0:Int)))).2).count e
      = ([Effect.drawNoData, Effect.setNoDataLeds].count e)
        + b' * ([Effect.setNoDataLeds].count e) := by
    intro e
    simp only [List.replicate_succ, runLoop_cons, hentry, List.count_append]
    rw [hS.2 e]
  have hC1 : (runLoop ⟨true, false, false⟩ (List.replicate (c' + 1) (nf, lf, (0:Int)))).1
      = loopInit := by
    simp only [List.replicate_succ, runLoop_cons, hrec]
    exact hF.1
  have hC2 : ∀ e : Effect,
      ((runLoop ⟨true, false, false⟩ (List.replicate (c' + 1) (nf, lf, (0:Int)))).2).count e
      = ([Effect.drawStatic, Effect.requestClearLeds, Effect.invalidateSnaps,
          Effect.widgetDraws, Effect.revLeds].count e)
        + c' * ([Effect.widgetDraws, Effect.revLeds].count e) := by
    intro e
    simp only [List.replicate_succ, runLoop_cons, hrec, List.count_append]
    rw [hF.2 e]
  refine ⟨?_, ?_, ?_, ?_, ?_⟩ <;>
    simp only [runLoop_append, List.count_append, hA.1, hB1, hA.2, hB2, hC1, hC2] <;>
    simp [List.count_cons]

/-- C3 witness: one fresh tick, one stale tick, one fresh tick. -/
theorem signalLost_enters_and_leaves_once_witness :
    ((runLoop loopInit (List.replicate 1 (100, 100, (0:Int))
        ++ List.replicate 1 (3000, 0, (0:Int))
        ++ List.replicate 1 (100, 100, (0:Int)))).2.count Effect.drawNoData = 1) ∧
    ((runLoop loopInit (List.replicate 1 (100, 100, (0:Int))
        ++ List.replicate 1 (3000, 0, (0:Int))
        ++ List.replicate 1 (100, 100, (0:Int)))).1 = loopInit) := by
  have h := signalLost_enters_and_leaves_once 1 1 1 100 100 3000 0
    (by norm_num) (by norm_num) (by norm_num) (by norm_num)
  exact ⟨h.1, h.2.2.2.2⟩

/-- C5: on any tick where the signal-lost condition holds (more than
2000 ms since the last received byte), whatever the pit-limiter flag
says, the no-data presentation is active (the flag is set and the
no-data LEDs are requested) and none of the pit-limiter behaviour
happens: no polarity inversion or restoration, no blinking P, and the
pit overlay flag is left untouched. -/
theorem signalLost_dominates_pit (s : LoopState) (now last : Nat) (pit : Int)
    (h : 2000 < now - last) :
    (loopTick s now last pit).1.noDataScreenActive = true ∧
    Effect.setNoDataLeds ∈ (loopTick s now last pit).2 ∧
    (loopTick s now last pit).1.pitScreenActive = s.pitScreenActive ∧
    Effect.invertOn ∉ (loopTick s now last pit).2 ∧
    Effect.invertOff ∉ (loopTick s now last pit).2 ∧
    Effect.pitBlink ∉ (loopTick s now last pit).2 := by
  rw [loopTick_stale s now last pit h]
  refine ⟨rfl, by simp, rfl, ?_, ?_, ?_⟩ <;> cases hnd : s.noDataScreenActive <;> simp

/-- C5 witness: a stale tick with the pit flag set, from the normal
state. -/
theorem signalLost_dominates_pit_witness :
    (loopTick loopInit 3000 0 1).1.noDataScreenActive = true ∧
    Effect.invertOn ∉ (loopTick loopInit 3000 0 1).2 ∧
    Effect.pitBlink ∉ (loopTick loopInit 3000 0 1).2 := by
  have h := signalLost_dominates_pit loopInit 3000 0 1 (by norm_num)
  exact ⟨h.1, h.2.2.2.1, h.2.2.2.2.2⟩

/-- C4 counterexample: the tick that enters the pit overlay (flag edge
0 to 1, taken from the normal state) inverts the display polarity but
performs no full repaint: neither the static background redraw nor the
snapshot invalidation appears among its effects, refuting the claimed
full repaint on each of the two transitions. -/
theorem pitEntry_no_repaint_counterexample :
    (loopTick loopInit 100 100 1).1.pitScreenActive = true ∧
    (loopTick loopInit 100 100 1).2.count Effect.invertOn = 1 ∧
    (loopTick loopInit 100 100 1).2.count Effect.drawStatic = 0 ∧
    (loopTick loopInit 100 100 1).2.count Effect.invalidateSnaps = 0 := by
  decide

/-- C4 amended: along a run of a fresh ticks with the pit flag clear,
then b >= 1 ticks with the flag set, then c >= 1 ticks with it clear
again, the display polarity is inverted exactly once (on the rising
edge) and restored exactly once (on the falling edge), and the full
repaint (static background redraw, snapshot invalidation, LED clear
request) happens exactly once in the whole run, on the falling edge
only -- the rising edge performs no repaint, the overlay keeping the
dash visible; the pit blink runs on each of the b overlay ticks and
neither inversion nor repaint repeats while the flag is merely held. -/
theorem pitLimiter_edges_once (a b c nf lf : Nat) (pit : Int)
    (hb : 1 ≤ b) (hc : 1 ≤ c) (hp : pit ≠ 0) (hf : nf - lf ≤ 2000) :
    ((runLoop loopInit (List.replicate a (nf, lf, (0:Int))
        ++ List.replicate b (nf, lf, pit)
        ++ List.replicate c (nf, lf, (0:Int)))).2.count Effect.invertOn = 1) ∧
    ((runLoop loopInit (List.replicate a (nf, lf, (0:Int))
        ++ List.replicate b (nf, lf, pit)
        ++ List.replicate c (nf, lf, (0:Int)))).2.count Effect.invertOff = 1) ∧
    ((runLoop loopInit (List.replicate a (nf, lf, (0:Int))
        ++ List.replicate b (nf, lf, pit)
        ++ List.replicate c (nf, lf, (0:Int)))).2.count Effect.drawStatic = 1) ∧
    ((runLoop loopInit (List.replicate a (nf, lf, (0:Int))
        ++ List.replicate b (nf, lf, pit)
        ++ List.replicate c (nf, lf, (0:Int)))).2.count Effect.invalidateSnaps = 1) ∧
    ((runLoop loopInit (List.replicate a (nf, lf, (0:Int))
        ++ List.replicate b (nf, lf, pit)
        ++ List.replicate c (nf, lf, (0:Int)))).2.count Effect.requestClearLeds = 1) ∧
    ((runLoop loopInit (List.replicate a (nf, lf, (0:Int))
        ++ List.replicate b (nf, lf, pit)
        ++ List.replicate c (nf, lf, (0:Int)))).2.count Effect.pitBlink = b) ∧
    ((runLoop loopInit (List.replicate a (nf, lf, (0:Int))
        ++ List.replicate b (nf, lf, pit)
        ++ List.replicate c (nf, lf, (0:Int)))).1 = loopInit) := by
  obtain ⟨b', rfl⟩ : ∃ b', b = b' + 1 := ⟨b - 1, by omega⟩
  obtain ⟨c', rfl⟩ : ∃ c', c = c' + 1 := ⟨c - 1, by omega⟩
  have hstepF := loopTick_fresh_normal nf lf hf
  have hentry := loopTick_pit_entry nf lf pit hp hf
  have hheld := loopTick_pit_held nf lf pit hp hf
  have hexit := loopTick_pit_exit nf lf hf
  have hA := runLoop_replicate_steady nf lf 0 loopInit _ hstepF a
  have hS := runLoop_replicate_steady nf lf pit ⟨false, true, true⟩ _ hheld b'
  have hF := runLoop_replicate_steady nf lf 0 loopInit _ hstepF c'
  have hB1 : (runLoop loopInit (List.replicate (b' + 1) (nf, lf, pit))).1
      = ⟨false, true, true⟩ := by
    simp only [List.replicate_succ, runLoop_cons, hentry]
    exact hS.1
  have hB2 : ∀ e : Effect, ((runLoop loopInit (List.replicate (b' + 1) (nf, lf, pit))).2).count e
      = ([Effect.invertOn, Effect.pitBlink, Effect.revLeds].count e)
        + b' * ([Effect.pitBlink, Effect.revLeds].count e) := by
    intro e
    simp only [List.replicate_succ, runLoop_cons, hentry, List.count_append]
    rw [hS.2 e]
  have hC1 : (runLoop ⟨false, true, true⟩ (List.replicate (c' + 1) (nf, lf, (0:Int)))).1
      = loopInit := by
    simp only [List.replicate_succ, runLoop_cons, hexit]
    exact hF.1
  have hC2 : ∀ e : Effect,
      ((runLoop ⟨false, true, true⟩ (List.replicate (c' + 1) (nf, lf, (0:Int)))).2).count e
      = ([Effect.invertOff, Effect.drawStatic, Effect.requestClearLeds,
          Effect.invalidateSnaps, Effect.widgetDraws, Effect.revLeds].count e)
        + c' * ([Effect.widgetDraws, Effect.revLeds].count e) := by
    intro e
    simp only [List.replicate_succ, runLoop_cons, hexit, List.count_append]
    rw [hF.2 e]
  refine ⟨?_, ?_, ?_, ?_, ?_, ?_, ?_⟩ <;>
    simp only [runLoop_append, List.count_append, hA.1, hB1, hA.2, hB2, hC1, hC2] <;>
    simp [List.count_cons] <;>
    try omega

/-- C4 witness for the amended theorem: one fresh tick, one overlay
tick, one recovery tick. -/
theorem pitLimiter_edges_once_witness :
    ((runLoop loopInit (List.replicate 1 (100, 100, (0:Int))
        ++ List.replicate 1 (100, 100, (1:Int))
        ++ List.replicate 1 (100, 100, (0:Int)))).2.count Effect.invertOn = 1) ∧
    ((runLoop loopInit (List.replicate 1 (100, 100, (0:Int))
        ++ List.replicate 1 (100, 100, (1:Int))
        ++ List.replicate 1 (100, 100, (0:Int)))).2.count Effect.drawStatic = 1) := by
  have h := pitLimiter_edges_once 1 1 1 100 100 1
    (by norm_num) (by norm_num) (by norm_num) (by norm_num)
  exact ⟨h.1, h.2.2.1⟩

lemma natDigits_small (n : Nat) (h : n < 10) : natDigits n = [digitChar n] := by
  rw [natDigits.eq_def, dif_pos h]

lemma natDigits_step (n : Nat) (h : ¬ n < 10) :
    natDigits n = natDigits (n / 10) ++ [digitChar (n % 10)] := by
  rw [natDigits.eq_def, dif_neg h]

/-- C7 counterexample: a decoded delta of -500 ms does not render as
the six-character text -0.500; the format %c %d.%03d used below ten
whole seconds inserts a space after the sign. -/
theorem deltaText_scenario_counterexample :
    deltaText (-500) ≠ "-0.500".toList := by
  decide

/-- C7 amended: the delta text always begins with the sign character
(minus for strictly negative, plus for strictly positive, the
plus-minus symbol at exactly zero); a magnitude of 100 s or more is
clamped to the 99.999 display range; the text color is the good green
if and only if the delta is negative and the bad red if and only if it
is positive; and -500 ms renders as the seven-character text
(minus, space, 0.500) in the gaining green. -/
theorem deltaWidget_format (v : Int) :
    ((deltaText v).head? = some (deltaSign v)) ∧
    (v < 0 → deltaSign v = '-') ∧
    (0 < v → deltaSign v = '+') ∧
    (v = 0 → deltaSign v = '±') ∧
    (100000 ≤ v.natAbs → deltaText v = deltaSign v :: pad2 99 ++ '.' :: pad3 999) ∧
    (deltaColor v = C_OK ↔ v < 0) ∧
    (deltaColor v = C_BAD ↔ 0 < v) ∧
    deltaText (-500) = "- 0.500".toList ∧
    deltaColor (-500) = C_OK := by
  have hscen : deltaText (-500) = "- 0.500".toList := by
    have h1 : deltaWhole (-500) = 0 := by decide
    have h2 : deltaFrac (-500) = 500 := by decide
    unfold deltaText
    rw [h1, h2, if_pos (by norm_num)]
    unfold pad3
    rw [if_neg (by norm_num), if_neg (by norm_num)]
    rw [natDigits_small 0 (by norm_num), natDigits_step 500 (by norm_num)]
    norm_num
    rw [natDigits_step 50 (by norm_num)]
    norm_num
    rw [natDigits_small 5 (by norm_num)]
    decide
  refine ⟨?_, ?_, ?_, ?_, ?_, ?_, ?_, hscen, by decide⟩
  · unfold deltaText
    split <;> rfl
  · intro h
    simp [deltaSign, h]
  · intro h
    simp [deltaSign, h, not_lt_of_gt h]
  · intro h
    simp [deltaSign, h]
  · intro h
    have hw : deltaWhole v = 99 := by
      unfold deltaWhole
      rw [if_pos (by omega)]
    have hfr : deltaFrac v = 999 := by
      unfold deltaFrac
      rw [if_pos (by omega)]
    unfold deltaText
    rw [hw, hfr, if_neg (by norm_num)]
  · rcases lt_trichotomy v 0 with h | h | h <;>
      simp [deltaColor, C_OK, C_BAD, C_TX, h, not_lt_of_gt, le_of_lt]
  · rcases lt_trichotomy v 0 with h | h | h <;>
      simp [deltaColor, C_OK, C_BAD, C_TX, h, not_lt_of_gt, le_of_lt]

/-- C7 witness: the amended theorem instantiated at -500 and at the
clamped magnitude 200000. -/
theorem deltaWidget_format_witness :
    deltaSign (-500) = '-' ∧
    deltaText 200000 = deltaSign 200000 :: pad2 99 ++ '.' :: pad3 999 := by
  refine ⟨(deltaWidget_format (-500)).2.1 (by norm_num), ?_⟩
  exact (deltaWidget_format 200000).2.2.2.2.1 (by norm_num)

lemma clamp01_of_neg (q : ℚ) (h : q < 0) : clamp01 q = 0 := by
  unfold clamp01
  rw [if_pos h]

lemma clamp01_of_ge_one (q : ℚ) (h : 1 ≤ q) : clamp01 q = 1 := by
  unfold clamp01
  rw [if_neg (by linarith)]
  split
  · rfl
  · linarith

lemma clampLit_bounds (l : Int) : 0 ≤ clampLit l ∧ clampLit l ≤ 8 := by
  unfold clampLit LED_COUNT
  split_ifs <;> omega

lemma clampLit_of_bounds (l : Int) (h0 : 0 ≤ l) (h8 : l ≤ 8) : clampLit l = l := by
  unfold clampLit LED_COUNT
  split_ifs <;> omega

/-- C8 counterexample: with all four flags zero, an instantaneous jump
of the engine-speed ratio from 0 to 1 moves the desired lit count from
0 to all 8, and the LED task, which keeps no previous lit count,
displays all 8 on its next tick: the displayed count changes by eight
LED steps in a single tick; the current sketch has no easing. -/
theorem revBar_no_easing_counterexample :
    revFlagMask 0 0 0 0 = 0 ∧
    revLitDesired 0 8000 = 0 ∧
    revLitDesired 8000 8000 = 8 ∧
    ledTaskLit (revLitDesired 8000 8000) = 8 := by
  refine ⟨by decide, ?_, ?_, ?_⟩ <;>
    norm_num [revLitDesired, ledTaskLit, clampLit, clamp01, roundQ, LED_COUNT]

/-- C8 amended: below the start percentage the desired lit count is 0
and at or above the end percentage it is all 8 LEDs, both for the
current sketch (window 0.80 to 1.00) and for the older revision
DASH.ino (window 0.75 to 0.90); the easing that moves the displayed
count by at most one LED step per tick exists only in DASH.ino, whose
easing step never moves lastLit by more than one; the current sketch
instead hands the clamped desired count unchanged to the LED task,
which applies it immediately. -/
theorem revBar_window_and_easing (rpm maxRpm : Int) (hr : 0 ≤ rpm) (hm : 0 < maxRpm) :
    ((rpm : ℚ) / (maxRpm : ℚ) < 8/10 → revLitDesired rpm maxRpm = 0) ∧
    (1 ≤ (rpm : ℚ) / (maxRpm : ℚ) → revLitDesired rpm maxRpm = 8) ∧
    ((rpm : ℚ) / (maxRpm : ℚ) < 3/4 → revTargetD rpm maxRpm = 0) ∧
    ((9:ℚ)/10 ≤ (rpm : ℚ) / (maxRpm : ℚ) → revTargetD rpm maxRpm = 8) ∧
    (∀ target lastLit : Int, ∀ nowOdd : Bool,
      (easeStep target lastLit nowOdd - lastLit).natAbs ≤ 1) ∧
    ledTaskLit (revLitDesired rpm maxRpm) = revLitDesired rpm maxRpm := by
  refine ⟨?_, ?_, ?_, ?_, ?_, ?_⟩
  · intro h
    unfold revLitDesired
    rw [if_pos ⟨hr, hm⟩, clamp01_of_neg _ (by apply div_neg_of_neg_of_pos <;> [linarith; norm_num])]
    norm_num [roundQ, clampLit, LED_COUNT]
  · intro h
    unfold revLitDesired
    rw [if_pos ⟨hr, hm⟩, clamp01_of_ge_one _ (by rw [le_div_iff₀ (by norm_num)]; linarith)]
    norm_num [roundQ, clampLit, LED_COUNT]
  · intro h
    unfold revTargetD
    rw [if_pos ⟨hr, hm⟩, clamp01_of_neg _ (by apply div_neg_of_neg_of_pos <;> [linarith; norm_num])]
    norm_num [roundQ]
  · intro h
    unfold revTargetD
    rw [if_pos ⟨hr, hm⟩, clamp01_of_ge_one _ (by rw [le_div_iff₀ (by norm_num)]; linarith)]
    norm_num [roundQ, LED_COUNT]
  · intro target lastLit nowOdd
    unfold easeStep
    split_ifs <;> omega
  · unfold revLitDesired
    rw [if_pos ⟨hr, hm⟩]
    exact clampLit_of_bounds _ (clampLit_bounds _).1 (clampLit_bounds _).2

/-- C8 witness: the amended theorem instantiated at a ratio of 0.75
(below the window of the current sketch) and at the full ratio. -/
theorem revBar_window_and_easing_witness :
    revLitDesired 6000 8000 = 0 ∧ revLitDesired 8000 8000 = 8 := by
  have h1 := revBar_window_and_easing 6000 8000 (by norm_num) (by norm_num)
  have h2 := revBar_window_and_easing 8000 8000 (by norm_num) (by norm_num)
  exact ⟨h1.1 (by norm_num), h2.2.1 (by norm_num)⟩

end Dash
